import Mathlib

/-!
Shallow embedding of the `NgxDataToCsvService` CSV conversion service
(`projects/ngx-data-to-csv/src/lib/ngx-data-to-csv.service.ts`, the current
documented revision of the file) together with its configuration model
(`model.ts`).  JavaScript runtime values are embedded as the inductive type
`Value`; machine behaviours that matter to the service are modelled
explicitly: property access on `undefined`/`null` throws (modelled with
`Except`), property access on other primitives yields `undefined`, `for .. in`
enumeration over primitives yields nothing except over strings (per-index
characters), and `String()`/`JSON.stringify` conversions are spelled out.
The host builtin `JSON.parse` is a parameter (`jsonParse`) of the functions
that use it, since it is not repository code: `none` models a parse error
(`SyntaxError`), `some v` a successful parse.
-/

set_option maxRecDepth 8192

/-- JSON-like JavaScript runtime values: the data the service consumes.
`vNull` is the JS value `null`; the JS value `undefined` is represented
where needed as `Option.none` around `Value`. -/
inductive Value where
  | vNull : Value
  | vBool (b : Bool) : Value
  | vNum (n : Int) : Value
  | vStr (s : String) : Value
  | vArr (elems : List Value) : Value
  | vObj (fields : List (String × Value)) : Value

open Value

/-- Character class of the JS regex `\w`: ASCII letters, digits, underscore. -/
def isWordChar (c : Char) : Bool := c.isAlphanum || c = '_'

/-- Helper for `splitDot`: accumulates the current chunk (reversed). -/
def splitDotAux : List Char → List Char → List String
  | acc, [] => [String.mk acc.reverse]
  | acc, c :: cs =>
    if c = '.' then String.mk acc.reverse :: splitDotAux [] cs
    else splitDotAux (c :: acc) cs

/-- JS `key.split('.')`: splits on every dot, keeping empty chunks
(so the result is always non-empty). -/
def splitDot (s : String) : List String := splitDotAux [] s.data

/-- JS `Array.prototype.join(sep)` on an array of strings. -/
def joinSep (sep : String) : List String → String
  | [] => ""
  | [x] => x
  | x :: y :: xs => x ++ sep ++ joinSep sep (y :: xs)

/-- Helper for `dedupFirst`: drops elements already seen, keeping first
occurrences in order — the insertion-order semantics of a JS `Set`. -/
def dedupAux (seen : List String) : List String → List String
  | [] => []
  | x :: xs => if seen.contains x then dedupAux seen xs else x :: dedupAux (x :: seen) xs

/-- Order-preserving duplicate removal: the observable content of building a
JS `Set<string>` by successive `add` calls and reading it back with
`Array.from`. -/
def dedupFirst (l : List String) : List String := dedupAux [] l

/-- One character of the global quote replacement of `formatCellValue`. -/
def dqStep (c : Char) (acc : List Char) : List Char :=
  if c = '"' then '"' :: '"' :: acc else c :: acc

/-- JS `str.replace(/"/g, '""')`: every double quote becomes two. -/
def doubleQuotes (s : String) : String :=
  String.mk (s.data.foldr dqStep [])

/-- JS `str.includes('"')`. -/
def containsQuote (s : String) : Bool := s.data.any (fun c => c = '"')

/-- JS `str.replace(/ /g, "_")`: every space becomes an underscore. -/
def replaceSpaces (s : String) : String :=
  String.mk (s.data.map (fun c => if c = ' ' then '_' else c))

/-- Numeric value of a list of decimal digit characters. -/
def digitsToNat (cs : List Char) : Nat :=
  cs.foldl (fun acc c => 10 * acc + (c.toNat - '0'.toNat)) 0

/-- Decides whether a property key string is a canonical JS array index
("0", or digits without a leading zero), and returns that index.  Non-index
keys read from a JS array (other than its non-enumerable builtins, which the
service never uses) yield `undefined`. -/
def parseArrayIndex (k : String) : Option Nat :=
  match k.data with
  | [] => none
  | c :: cs =>
    if c = '0' then (if cs = [] then some 0 else none)
    else if c.isDigit && cs.all Char.isDigit then some (digitsToNat (c :: cs))
    else none

/-- One attempt of the JS regex `/(\w+)\[(\d+)\]/` at a fixed start position:
a maximal non-empty `\w+` run, then `[`, then a non-empty digit run, then `]`.
Returns the two capture groups. -/
def matchAt (cs : List Char) : Option (String × String) :=
  let w := cs.takeWhile isWordChar
  if w = [] then none
  else
    match cs.drop w.length with
    | '[' :: rest =>
      let d := rest.takeWhile Char.isDigit
      if d = [] then none
      else
        match rest.drop d.length with
        | ']' :: _ => some (String.mk w, String.mk d)
        | _ => none
    | _ => none

/-- Leftmost match of the regex `/(\w+)\[(\d+)\]/`: try each start position
left to right. -/
def findIndexMatch : List Char → Option (String × String)
  | [] => none
  | c :: cs =>
    match matchAt (c :: cs) with
    | some r => some r
    | none => findIndexMatch cs

/-- JS `seg.match(/(\w+)\[(\d+)\]/)`, reduced to its two capture groups
(`match[1]`, `match[2]`); `none` when the regex does not match. -/
def matchIndexSegment (s : String) : Option (String × String) := findIndexMatch s.data

/-- First binding of a key in a JS object literal (objects built by the
service's callers have unique keys, so first-match is exact). -/
def lookupField : List (String × Value) → String → Option Value
  | [], _ => none
  | (k, v) :: fs, key => if k = key then some v else lookupField fs key

/-- JS property access `current[k]` where `current` may be `undefined`
(`Option.none`): access on `undefined` or `null` throws a `TypeError`
(modelled as `Except.error ()`), objects look the key up, arrays and strings
index when the key is a canonical index (a string additionally yields its
single-character substring), and any other primitive yields `undefined`. -/
def jsGet : Option Value → String → Except Unit (Option Value)
  | none, _ => .error ()
  | some vNull, _ => .error ()
  | some (vObj fs), k => .ok (lookupField fs k)
  | some (vArr xs), k =>
    .ok (match parseArrayIndex k with
      | some i => xs[i]?
      | none => none)
  | some (vStr s), k =>
    .ok (match parseArrayIndex k with
      | some i => (s.data[i]?).map (fun c => vStr (String.mk [c]))
      | none => none)
  | some _, _ => .ok none

/-- One iteration of the loop in `getNestedObjectValue`: on a segment
matching `name[index]` it performs `current[match[1]][match[2]]`, otherwise
`current[key]`. -/
def stepSeg (current : Option Value) (seg : String) : Except Unit (Option Value) :=
  match matchIndexSegment seg with
  | some (name, idx) =>
    match jsGet current name with
    | .error e => .error e
    | .ok a => jsGet a idx
  | none => jsGet current seg

/-- The whole loop of `getNestedObjectValue` over the dot-split segments. -/
def resolveSegs : Option Value → List String → Except Unit (Option Value)
  | current, [] => .ok current
  | current, s :: ss =>
    match stepSeg current s with
    | .error e => .error e
    | .ok next => resolveSegs next ss

/-- Embedding of `NgxDataToCsvService.getNestedObjectValue(obj, key)`:
split the key on dots, then walk; a thrown `TypeError` (access on an
`undefined` or `null` intermediate) is `Except.error`. -/
def getNestedObjectValue (obj : Value) (key : String) : Except Unit (Option Value) :=
  resolveSegs (some obj) (splitDot key)

/-- Hexadecimal digit character (lowercase), for JSON control escapes. -/
def hexDigit (n : Nat) : Char :=
  if n < 10 then Char.ofNat ('0'.toNat + n) else Char.ofNat ('a'.toNat + n - 10)

/-- JSON.stringify escaping of one character inside a string literal. -/
def jsonEscapeChar (c : Char) : List Char :=
  if c = '"' then ['\\', '"']
  else if c = '\\' then ['\\', '\\']
  else if c = '\x08' then ['\\', 'b']
  else if c = '\x09' then ['\\', 't']
  else if c = '\x0a' then ['\\', 'n']
  else if c = '\x0c' then ['\\', 'f']
  else if c = '\x0d' then ['\\', 'r']
  else if c.toNat < 0x20 then ['\\', 'u', '0', '0', hexDigit (c.toNat / 16), hexDigit (c.toNat % 16)]
  else [c]

/-- JSON string literal for a string value. -/
def jsonQuote (s : String) : String :=
  "\"" ++ String.mk (s.data.foldr (fun c acc => jsonEscapeChar c ++ acc) []) ++ "\""

mutual

/-- Model of the host `JSON.stringify` on the embedded values (no member of
`Value` is `undefined`, so no members are skipped). -/
def jsonStringify : Value → String
  | vNull => "null"
  | vBool b => cond b "true" "false"
  | vNum n => toString n
  | vStr s => jsonQuote s
  | vArr xs => "[" ++ jsonStringifyArr xs ++ "]"
  | vObj fs => "\x7b" ++ jsonStringifyObj fs ++ "\x7d"

/-- Comma-joined serializations of array elements. -/
def jsonStringifyArr : List Value → String
  | [] => ""
  | [x] => jsonStringify x
  | x :: y :: xs => jsonStringify x ++ "," ++ jsonStringifyArr (y :: xs)

/-- Comma-joined serializations of object members. -/
def jsonStringifyObj : List (String × Value) → String
  | [] => ""
  | [(k, v)] => jsonQuote k ++ ":" ++ jsonStringify v
  | (k, v) :: f :: fs => jsonQuote k ++ ":" ++ jsonStringify v ++ "," ++ jsonStringifyObj (f :: fs)

end

/-- JS `String()` conversion of primitive values.  The structured cases are
unreachable where this is used (`formatCellValue` serializes objects and
arrays with `JSON.stringify` first, and `normalizeData` only applies it when
`typeof` is not `'object'`); they are given their JS renderings for totality. -/
def jsPrimToString : Value → String
  | vNull => "null"
  | vBool b => cond b "true" "false"
  | vNum n => toString n
  | vStr s => s
  | vArr _ => ""
  | vObj _ => "[object Object]"

/-- The local `strValue` of `formatCellValue`: the resolved value after the
`JSON.stringify` branch for non-null objects/arrays and JS `String()`
conversion (`String(undefined)` is "undefined", `String(null)` is "null"). -/
def strCellValue : Option Value → String
  | none => "undefined"
  | some (vObj fs) => jsonStringify (vObj fs)
  | some (vArr xs) => jsonStringify (vArr xs)
  | some v => jsPrimToString v

/-- Embedding of `NgxDataToCsvService.formatCellValue(obj, key)`: resolve the
key path (a thrown `TypeError` propagates), serialize non-null structured
values as JSON, convert to string, double the quotes when any are present,
and wrap in double quotes. -/
def formatCellValue (obj : Value) (key : String) : Except Unit String :=
  match getNestedObjectValue obj key with
  | .error e => .error e
  | .ok v =>
    let strValue := strCellValue v
    let finalValue := if containsQuote strValue then doubleQuotes strValue else strValue
    .ok ("\"" ++ finalValue ++ "\"")

mutual

/-- The inner `extract(obj, currentKeyPrefix)` of `extractUniqueKeys`,
applied to an arbitrary value: `for (const key in obj)` enumerates an
object's fields, an array's indices, a string's character indices, and
nothing for other primitives (and for `null`). -/
def extractVal (pfx : String) : Value → List String
  | vObj fs => extractFields pfx fs
  | vArr xs => extractIdxFields pfx 0 xs
  | vStr s => (List.range s.length).map (fun i => pfx ++ toString i)
  | _ => []

/-- Walk of the `for .. in` loop over an object's fields. -/
def extractFields (pfx : String) : List (String × Value) → List String
  | [] => []
  | (k, w) :: rest => classifyField pfx k w ++ extractFields pfx rest

/-- The loop body of `extract`: arrays recurse per element with a
`key[index].` prefix, non-null objects recurse with a `key.` prefix, and
anything else (primitives and `null`) is a leaf key path. -/
def classifyField (pfx : String) (k : String) : Value → List String
  | vArr xs => extractElems pfx k 0 xs
  | vObj fs => extractFields (pfx ++ k ++ ".") fs
  | _ => [pfx ++ k]

/-- The `forEach` over an array-valued field: `extract(item, pfx ++ k[i].)`. -/
def extractElems (pfx : String) (k : String) : Nat → List Value → List String
  | _, [] => []
  | i, x :: xs =>
    extractVal (pfx ++ k ++ "[" ++ toString i ++ "].") x ++ extractElems pfx k (i + 1) xs

/-- The `for .. in` loop when `extract` receives an array directly: its
enumerable keys are the indices "0", "1", ... . -/
def extractIdxFields (pfx : String) : Nat → List Value → List String
  | _, [] => []
  | i, x :: xs => classifyField pfx (toString i) x ++ extractIdxFields pfx (i + 1) xs

end

/-- Discovery sequence of `extractUniqueKeys` before deduplication: the
`arr.forEach(item => extract(item, keyPrefix))` scan in input order. -/
def extractAll : List Value → String → List String
  | [], _ => []
  | v :: vs, pfx => extractVal pfx v ++ extractAll vs pfx

/-- Embedding of `NgxDataToCsvService.extractUniqueKeys(arr, keyPrefix)`
(the `keyPrefix` parameter defaults to the empty string at every call site in
the service): the shared `Set` keeps first-discovery order with duplicates
suppressed. -/
def extractUniqueKeys (arr : List Value) (keyPfx : String) : List String :=
  dedupFirst (extractAll arr keyPfx)

/-- Embedding of the `Config` interface of `model.ts`: every field optional,
`none` modelling an absent key. -/
structure Config where
  filename : Option String
  fieldSeparator : Option String
  showTitle : Option Bool
  title : Option String
  useByteOrderMark : Option Bool
  noDownload : Option Bool

/-- A `Config` with no key set, the base for building call-site configs. -/
def emptyConfig : Config := ⟨none, none, none, none, none, none⟩

/-- The fully-resolved options the service works with after the shallow
merge over the defaults. -/
structure Options where
  filename : String
  fieldSeparator : String
  showTitle : Bool
  title : String
  useByteOrderMark : Bool
  noDownload : Bool
deriving DecidableEq

/-- The `ConfigDefaults` constant of `model.ts`. -/
def ConfigDefaults : Options :=
  ⟨"csv.csv", ",", false, "CSV", true, false⟩

/-- The `END_OF_LINE` constant of `CsvConfigConsts`. -/
def END_OF_LINE : String := "\r\n"

/-- The `ByteOrderMark` constant of `CsvConfigConsts` (U+FEFF). -/
def ByteOrderMark : String := "\uFEFF"

/-- The shallow merge `{ ...ConfigDefaults, ...config }`: each key present in
the caller's config overrides the default. -/
def mergeConfig : Option Config → Options
  | none => ConfigDefaults
  | some c =>
    ⟨c.filename.getD ConfigDefaults.filename,
     c.fieldSeparator.getD ConfigDefaults.fieldSeparator,
     c.showTitle.getD ConfigDefaults.showTitle,
     c.title.getD ConfigDefaults.title,
     c.useByteOrderMark.getD ConfigDefaults.useByteOrderMark,
     c.noDownload.getD ConfigDefaults.noDownload⟩

/-- The `if (filename) this.options.filename = filename;` step: a JS string
is truthy exactly when non-empty. -/
def applyFilename (opts : Options) (filename : String) : Options :=
  if filename = "" then opts
  else { opts with filename := filename }

/-- JS `typeof v === 'object'`: true for objects, arrays, and `null`. -/
def typeofObject : Value → Bool
  | vNull => true
  | vObj _ => true
  | vArr _ => true
  | _ => false

/-- Embedding of `NgxDataToCsvService.parseJson(jsonString)` (current
revision): a parse failure, or a parse to anything other than a non-null
object or array, throws; the error message wraps the inner one. -/
def parseJson (jsonParse : String → Option Value) (jsonString : String) : Except String Value :=
  match jsonParse jsonString with
  | none => .error "Invalid JSON"
  | some (vObj fs) => .ok (vObj fs)
  | some (vArr xs) => .ok (vArr xs)
  | some _ => .error "Invalid JSON: Parsed data is not an object or is null"

/-- The normalization ternary of `toCsv`:
`typeof dataToTransform != 'object' ? this.parseJson(dataToTransform) : dataToTransform`.
A primitive argument is coerced to a string by `JSON.parse`. -/
def normalizeData (jsonParse : String → Option Value) (d : Value) : Except String Value :=
  if typeofObject d then .ok d
  else parseJson jsonParse (jsPrimToString d)

/-- The cells of one data row: `keys.map(key => this.formatCellValue(obj, key))`,
left to right, a thrown error aborting the whole map. -/
def mapCells (r : Value) : List String → Except Unit (List String)
  | [] => .ok []
  | k :: ks =>
    match formatCellValue r k with
    | .error e => .error e
    | .ok c =>
      match mapCells r ks with
      | .error e => .error e
      | .ok cs => .ok (c :: cs)

/-- The grid of all formatted cells: one list of cells per record, each over
the same key list. -/
def documentGrid (records : List Value) (keys : List String) : Except Unit (List (List String)) :=
  match records with
  | [] => .ok []
  | r :: rs =>
    match mapCells r keys with
    | .error e => .error e
    | .ok row =>
      match documentGrid rs keys with
      | .error e => .error e
      | .ok rows => .ok (row :: rows)

/-- Embedding of `NgxDataToCsvService.generateCsvHeader(keys)` as the text it
appends: the raw keys joined by the separator, then the end-of-line marker.
No quoting or escaping is applied to header cells. -/
def generateCsvHeader (keys : List String) (sep : String) : String :=
  joinSep sep keys ++ END_OF_LINE

/-- Rendering of one data row as appended by `generateCsvRow`. -/
def renderRow (sep : String) (cells : List String) : String :=
  joinSep sep cells ++ END_OF_LINE

/-- The row loop of `toCsv`: each record's row is appended to the
accumulated CSV text; a `TypeError` thrown while formatting a row's cells
aborts the loop before that row is appended (`true` flags the throw). -/
def rowsLoop (keys : List String) (sep : String) : String → List Value → String × Bool
  | csv, [] => (csv, false)
  | csv, r :: rs =>
    match mapCells r keys with
    | .error _ => (csv, true)
    | .ok cells => rowsLoop keys sep (csv ++ renderRow sep cells) rs

/-- Observable outcome of one `toCsv` call: the returned CSV string
(`noDownload`), a silent `undefined` return, a triggered download (with the
final filename handed to the delivery step), or a thrown error. -/
inductive CsvOutcome where
  | returned (csv : String)
  | voidReturn
  | downloaded (csv : String) (filename : String)
  | threw (msg : String)
deriving DecidableEq

/-- The mutable instance fields of the service: `data` (`none` until first
assigned; the inner `Option Value` has `none` for a JS `null`-or-`undefined`
assignment — the service only ever assigns it a `Value`), `options` (`none`
until first assigned), and the accumulation buffer `csv`. -/
structure ServiceState where
  data : Option Value
  options : Option Options
  csv : String

/-- A fresh service instance: no data, no options, empty buffer. -/
def initialState : ServiceState := ⟨none, none, ""⟩

/-- The optional document prelude appended by `addByteOrderMarkAndTitle`. -/
def csvPrelude (opts : Options) : String :=
  (if opts.useByteOrderMark then ByteOrderMark else "")
    ++ (if opts.showTitle then opts.title ++ "\r\n\n" else "")

/-- Embedding of `NgxDataToCsvService.toCsv(dataToTransform, filename, config)`
(current revision) as a transition on the instance state, also yielding the
call's outcome.  Stages in source order: reset `csv` to the empty string;
normalize the data argument (a throw leaves `data` untouched); return
`undefined` when the normalized data is falsy (`null`); merge the config and
apply the filename argument; append BOM and title; extract the unique keys;
append the header; append one row per record (a `TypeError` while resolving
a cell propagates); throw on an empty document; then either return the text
(`noDownload`) or hand it to `downloadCsvFile`, which uses the filename with
spaces replaced by underscores and `.csv` appended.  Calling `forEach` on a
non-array object throws a `TypeError`. -/
def toCsvStateful (jsonParse : String → Option Value) (st : ServiceState)
    (dataToTransform : Value) (filename : String) (config : Option Config) :
    ServiceState × CsvOutcome :=
  match normalizeData jsonParse dataToTransform with
  | .error msg => ({ st with csv := "" }, .threw msg)
  | .ok vNull => ({ st with csv := "", data := some vNull }, .voidReturn)
  | .ok d =>
    let opts := applyFilename (mergeConfig config) filename
    match d with
    | vArr records =>
      let keys := extractUniqueKeys records ""
      let headered := csvPrelude opts ++ generateCsvHeader keys opts.fieldSeparator
      match rowsLoop keys opts.fieldSeparator headered records with
      | (csv, true) =>
        ({ data := some d, options := some opts, csv := csv }, .threw "TypeError")
      | (csv, false) =>
        if csv = "" then
          ({ data := some d, options := some opts, csv := csv }, .threw "Invalid data")
        else if opts.noDownload then
          ({ data := some d, options := some opts, csv := csv }, .returned csv)
        else
          ({ data := some d, options := some opts, csv := csv },
           .downloaded csv (replaceSpaces opts.filename ++ ".csv"))
    | _ =>
      ({ data := some d, options := some opts, csv := csvPrelude opts },
       .threw "TypeError: this.data.forEach is not a function")

/-- The outcome of a `toCsv` call on a fresh service instance. -/
def toCsv (jsonParse : String → Option Value) (dataToTransform : Value)
    (filename : String) (config : Option Config) : CsvOutcome :=
  (toCsvStateful jsonParse initialState dataToTransform filename config).2

/-- The CSV text a call outcome delivers, whether returned or downloaded. -/
def csvTextOf : CsvOutcome → Option String
  | .returned csv => some csv
  | .downloaded csv _ => some csv
  | _ => none

/-- A concrete stand-in for the host JSON parser that fails on every input;
used to instantiate parser-independent statements at concrete calls. -/
def noParse : String → Option Value := fun _ => none


/-- Configuration used across the spec's scenarios: defaults except
`noDownload: true`. -/
def cfgNoDownload : Config := { emptyConfig with noDownload := some true }

/-- The records of the spec's scenario 6, as a list. -/
def flatRecordList : List Value :=
  [vObj [("a", vNum 1), ("b", vStr "x")], vObj [("a", vNum 2), ("b", vStr "y")]]

/-- The flat-record input collection of the spec's scenario 6. -/
def flatRecords : Value := vArr flatRecordList

/-- Predicate for the claims about primitive array elements that are not
strings: `null`, booleans, numbers. -/
def nonStringPrim : Value → Bool
  | vNull => true
  | vBool _ => true
  | vNum _ => true
  | _ => false

/-- Values `JSON.parse` may return that `parseJson` accepts: non-null objects
and arrays. -/
def isObjOrArr : Value → Bool
  | vObj _ => true
  | vArr _ => true
  | _ => false

/-- Number of double-quote characters in a string. -/
def quoteCount (s : String) : Nat := s.data.count '"'

/-- Concatenation of a list of strings (the text the row loop appends). -/
def concatStrings : List String → String
  | [] => ""
  | x :: xs => x ++ concatStrings xs

/-!  Helper lemmas. -/

theorem strData_append (a b : String) : (a ++ b).data = a.data ++ b.data := by
  cases a; cases b; rfl

theorem mem_dedupAux (l : List String) : ∀ (seen : List String) (x : String),
    x ∈ dedupAux seen l ↔ x ∈ l ∧ x ∉ seen := by
  induction l with
  | nil => intro seen x; simp [dedupAux]
  | cons a as ih =>
    intro seen x
    by_cases h : seen.contains a
    · have ha : a ∈ seen := by simpa using h
      rw [dedupAux, if_pos h, ih]
      constructor
      · rintro ⟨hx, hns⟩
        exact ⟨List.mem_cons_of_mem _ hx, hns⟩
      · rintro ⟨hx, hns⟩
        rcases List.mem_cons.mp hx with rfl | hx
        · exact absurd ha hns
        · exact ⟨hx, hns⟩
    · have ha : a ∉ seen := by simpa using h
      rw [dedupAux, if_neg h]
      constructor
      · intro hx
        rcases List.mem_cons.mp hx with rfl | hx
        · exact ⟨List.mem_cons_self _ _, ha⟩
        · rcases (ih (a :: seen) x).mp hx with ⟨h1, h2⟩
          refine ⟨List.mem_cons_of_mem _ h1, fun hc => h2 (List.mem_cons_of_mem _ hc)⟩
      · rintro ⟨hx, hns⟩
        rcases List.mem_cons.mp hx with rfl | hx
        · exact List.mem_cons_self _ _
        · by_cases hxa : x = a
          · subst hxa; exact List.mem_cons_self _ _
          · exact List.mem_cons_of_mem _ ((ih (a :: seen) x).mpr
              ⟨hx, fun hc => (List.mem_cons.mp hc).elim hxa hns⟩)

theorem nodup_dedupAux (l : List String) : ∀ (seen : List String),
    (dedupAux seen l).Nodup := by
  induction l with
  | nil => intro seen; simp [dedupAux]
  | cons a as ih =>
    intro seen
    by_cases h : seen.contains a
    · rw [dedupAux, if_pos h]; exact ih seen
    · rw [dedupAux, if_neg h]
      refine List.nodup_cons.mpr ⟨fun hc => ?_, ih (a :: seen)⟩
      exact ((mem_dedupAux as (a :: seen) a).mp hc).2 (List.mem_cons_self _ _)

theorem dedupAux_sublist (l : List String) : ∀ (seen : List String),
    (dedupAux seen l).Sublist l := by
  induction l with
  | nil => intro seen; simp [dedupAux]
  | cons a as ih =>
    intro seen
    by_cases h : seen.contains a
    · rw [dedupAux, if_pos h]; exact (ih seen).cons a
    · rw [dedupAux, if_neg h]; exact (ih (a :: seen)).cons₂ a

theorem mem_dedupFirst (l : List String) (x : String) :
    x ∈ dedupFirst l ↔ x ∈ l := by
  rw [dedupFirst, mem_dedupAux]; simp

theorem nodup_dedupFirst (l : List String) : (dedupFirst l).Nodup :=
  nodup_dedupAux l []

theorem dedupFirst_sublist (l : List String) : (dedupFirst l).Sublist l :=
  dedupAux_sublist l []

theorem mapCells_length (r : Value) (ks : List String) (cs : List String)
    (h : mapCells r ks = .ok cs) : cs.length = ks.length := by
  induction ks generalizing cs with
  | nil => rw [mapCells] at h; cases h; rfl
  | cons k ks ih =>
    rw [mapCells] at h
    cases hf : formatCellValue r k with
    | error e => rw [hf] at h; cases h
    | ok c =>
      rw [hf] at h
      cases hm : mapCells r ks with
      | error e => rw [hm] at h; cases h
      | ok cs0 =>
        rw [hm] at h
        cases h
        simpa using ih cs0 hm

theorem documentGrid_length (records : List Value) (keys : List String)
    (grid : List (List String)) (h : documentGrid records keys = .ok grid) :
    ∀ row ∈ grid, row.length = keys.length := by
  induction records generalizing grid with
  | nil => rw [documentGrid] at h; cases h; intro row hr; cases hr
  | cons r rs ih =>
    rw [documentGrid] at h
    cases hm : mapCells r keys with
    | error e => rw [hm] at h; cases h
    | ok row0 =>
      rw [hm] at h
      cases hg : documentGrid rs keys with
      | error e => rw [hg] at h; cases h
      | ok rows0 =>
        rw [hg] at h
        cases h
        intro row hr
        rcases List.mem_cons.mp hr with rfl | hr
        · exact mapCells_length r keys row hm
        · exact ih rows0 hg row hr

theorem rowsLoop_of_grid_ok (keys : List String) (sep : String)
    (records : List Value) (grid : List (List String))
    (h : documentGrid records keys = .ok grid) :
    ∀ csv, rowsLoop keys sep csv records
      = (csv ++ concatStrings (grid.map (renderRow sep)), false) := by
  induction records generalizing grid with
  | nil =>
    rw [documentGrid] at h; cases h; intro csv
    simp [rowsLoop, concatStrings]
  | cons r rs ih =>
    rw [documentGrid] at h
    cases hm : mapCells r keys with
    | error e => rw [hm] at h; cases h
    | ok row0 =>
      rw [hm] at h
      cases hg : documentGrid rs keys with
      | error e => rw [hg] at h; cases h
      | ok rows0 =>
        rw [hg] at h
        cases h
        intro csv
        simp only [rowsLoop, hm]
        rw [ih rows0 hg]
        simp [concatStrings, String.append_assoc]

theorem rowsLoop_of_grid_error (keys : List String) (sep : String)
    (records : List Value) (e : Unit)
    (h : documentGrid records keys = .error e) :
    ∀ csv, (rowsLoop keys sep csv records).2 = true := by
  induction records with
  | nil => rw [documentGrid] at h; cases h
  | cons r rs ih =>
    rw [documentGrid] at h
    cases hm : mapCells r keys with
    | error e0 => intro csv; simp only [rowsLoop, hm]
    | ok row0 =>
      rw [hm] at h
      cases hg : documentGrid rs keys with
      | error e0 =>
        intro csv
        simp only [rowsLoop, hm]
        exact ih hg _
      | ok rows0 => rw [hg] at h; cases h

theorem splitDotAux_no_dot (cs : List Char) (hnd : '.' ∉ cs) :
    ∀ acc, splitDotAux acc cs = [String.mk (acc.reverse ++ cs)] := by
  induction cs with
  | nil => intro acc; simp [splitDotAux]
  | cons c cs ih =>
    intro acc
    have hc : ¬ c = '.' := fun h => hnd (h ▸ List.mem_cons_self _ _)
    rw [splitDotAux, if_neg hc, ih (fun h => hnd (List.mem_cons_of_mem _ h))]
    simp

theorem splitDot_no_dot (s : String) (hnd : '.' ∉ s.data) : splitDot s = [s] := by
  rw [splitDot, splitDotAux_no_dot s.data hnd []]
  cases s; simp

theorem stepSeg_none (seg : String) : stepSeg none seg = .error () := by
  rw [stepSeg]
  cases h : matchIndexSegment seg with
  | none => rfl
  | some p => cases p; rfl

theorem resolveSegs_none_cons (s : String) (ss : List String) :
    resolveSegs none (s :: ss) = .error () := by
  rw [resolveSegs, stepSeg_none]

theorem dqFold_no_quote (cs : List Char) (h : ∀ c ∈ cs, ¬ c = '"') :
    cs.foldr dqStep [] = cs := by
  induction cs with
  | nil => rfl
  | cons c cs ih =>
    rw [List.foldr_cons, dqStep, if_neg (h c (List.mem_cons_self _ _)),
      ih (fun x hx => h x (List.mem_cons_of_mem _ hx))]

theorem dqFold_count (cs : List Char) :
    (cs.foldr dqStep []).count '"' = 2 * cs.count '"' := by
  induction cs with
  | nil => rfl
  | cons c cs ih =>
    rw [List.foldr_cons, dqStep]
    by_cases hc : c = '"'
    · subst hc
      rw [if_pos rfl]
      simp only [List.count_cons, ih, beq_self_eq_true, if_true]
      omega
    · rw [if_neg hc]
      simp only [List.count_cons, ih]
      simp [hc]

theorem dqFold_filter (cs : List Char) :
    (cs.foldr dqStep []).filter (fun c => c != '"') = cs.filter (fun c => c != '"') := by
  induction cs with
  | nil => rfl
  | cons c cs ih =>
    rw [List.foldr_cons, dqStep]
    by_cases hc : c = '"'
    · subst hc
      rw [if_pos rfl]
      simp [List.filter_cons, ih]
    · rw [if_neg hc]
      have hb : (c != '"') = true := by simpa using hc
      simp [List.filter_cons, hb, ih]

theorem doubleQuotes_no_quote (s : String) (h : containsQuote s = false) :
    doubleQuotes s = s := by
  rw [containsQuote] at h
  have hh : ∀ c ∈ s.data, ¬ c = '"' := by
    intro c hc hq
    subst hq
    have hx : (s.data.any fun c => decide (c = '"')) = true :=
      List.any_eq_true.mpr ⟨'"', hc, by simp⟩
    rw [hx] at h
    cases h
  rw [doubleQuotes, dqFold_no_quote s.data hh]

theorem quoteCount_doubleQuotes (s : String) :
    quoteCount (doubleQuotes s) = 2 * quoteCount s := by
  rw [quoteCount, quoteCount, doubleQuotes]
  exact dqFold_count s.data

theorem doubleQuotes_filter (s : String) :
    (doubleQuotes s).data.filter (fun c => c != '"')
      = s.data.filter (fun c => c != '"') := by
  rw [doubleQuotes]
  exact dqFold_filter s.data

theorem formatCellValue_ok (obj : Value) (key : String) (v : Option Value)
    (h : getNestedObjectValue obj key = .ok v) :
    formatCellValue obj key = .ok ("\"" ++ doubleQuotes (strCellValue v) ++ "\"") := by
  rw [formatCellValue, h]
  by_cases hq : containsQuote (strCellValue v)
  · simp [hq]
  · simp only [Bool.not_eq_true] at hq
    simp [hq, doubleQuotes_no_quote _ hq]

theorem extractVal_nonStringPrim (pfx : String) (v : Value) (h : nonStringPrim v = true) :
    extractVal pfx v = [] := by
  cases v with
  | vNull => rfl
  | vBool b => rfl
  | vNum n => rfl
  | vStr s => exact Bool.noConfusion h
  | vArr xs => exact Bool.noConfusion h
  | vObj fs => exact Bool.noConfusion h

theorem extractElems_nonStringPrim (pfx k : String) (xs : List Value)
    (h : ∀ x ∈ xs, nonStringPrim x = true) :
    ∀ i, extractElems pfx k i xs = [] := by
  induction xs with
  | nil => intro i; rfl
  | cons x xs ih =>
    intro i
    rw [extractElems, extractVal_nonStringPrim _ x (h x (List.mem_cons_self _ _)),
      ih (fun y hy => h y (List.mem_cons_of_mem _ hy)) (i + 1)]
    rfl

theorem mem_extractAll_of_mem (records : List Value) (pfx : String) (r : Value)
    (hr : r ∈ records) (k : String) (hk : k ∈ extractVal pfx r) :
    k ∈ extractAll records pfx := by
  induction records with
  | nil => cases hr
  | cons a as ih =>
    rw [extractAll]
    rcases List.mem_cons.mp hr with rfl | hr
    · exact List.mem_append_left _ hk
    · exact List.mem_append_right _ (ih hr)

theorem toCsvStateful_outcome_state_free (jp : String → Option Value)
    (d : Value) (fn : String) (config : Option Config) (st st' : ServiceState) :
    (toCsvStateful jp st d fn config).2 = (toCsvStateful jp st' d fn config).2 := by
  simp only [toCsvStateful]
  cases hn : normalizeData jp d with
  | error msg => rfl
  | ok v =>
    cases v with
    | vNull => rfl
    | vBool b => rfl
    | vNum n => rfl
    | vStr s => rfl
    | vObj fs => rfl
    | vArr records =>
      rcases hr : rowsLoop (extractUniqueKeys records "")
          (applyFilename (mergeConfig config) fn).fieldSeparator
          (csvPrelude (applyFilename (mergeConfig config) fn)
            ++ generateCsvHeader (extractUniqueKeys records "")
                 (applyFilename (mergeConfig config) fn).fieldSeparator) records
        with ⟨csv, b⟩
      simp only [hr]

/-- Claim C1, counterexample: on the flat-record collection
`[{a:1,b:"x"}, {a:2,b:"y"}]` with defaults except `noDownload:true` and no
overriding filename, `toCsv` returns BOM + `a,b\r\n"1","x"\r\n"2","y"\r\n` —
the header cells are NOT quoted, so the output differs from the claimed
BOM + `"a","b"\r\n"1","x"\r\n"2","y"\r\n`. -/
theorem toCsv_flat_records_header_not_quoted :
    toCsv noParse flatRecords "" (some cfgNoDownload)
      = .returned ("﻿" ++ "a,b\r\n\"1\",\"x\"\r\n\"2\",\"y\"\r\n")
  ∧ toCsv noParse flatRecords "" (some cfgNoDownload)
      ≠ .returned ("﻿" ++ "\"a\",\"b\"\r\n\"1\",\"x\"\r\n\"2\",\"y\"\r\n") := by
  exact ⟨rfl, by decide⟩

/-- Claim C1 (amended): for the input collection `[{a:1,b:"x"}, {a:2,b:"y"}]`
with default configuration except `noDownload:true` and no overriding
filename, `toCsv` returns exactly the byte-order mark U+FEFF followed by
`a,b\r\n"1","x"\r\n"2","y"\r\n` — the header line is the unquoted key paths,
every data cell is quoted, and the header line and every data row (including
the last) is terminated by `\r\n`.  The result holds for every behaviour of
the host JSON parser, which is not consulted on structured input. -/
theorem toCsv_flat_records_output : ∀ jsonParse : String → Option Value,
    toCsv jsonParse flatRecords "" (some cfgNoDownload)
      = .returned ("﻿" ++ "a,b\r\n\"1\",\"x\"\r\n\"2\",\"y\"\r\n") := by
  intro jp
  rfl

/-- Claim C2, counterexample: a key path whose (single) final segment is
absent from the record resolves to `undefined` and is formatted as the
quoted literal `"undefined"`, which is not an empty quoted cell; and a key
path whose non-final segment is absent makes resolution throw, so a
conversion whose key-path set mixes record shapes fails instead of
proceeding. -/
theorem undefined_cell_not_empty :
    formatCellValue (vObj [("a", vNum 1)]) "b" = .ok "\"undefined\""
  ∧ "\"undefined\"" ≠ "\"\""
  ∧ getNestedObjectValue (vObj [("b", vNum 2)]) "a.x" = .error ()
  ∧ getNestedObjectValue (vObj []) "t[0]" = .error ()
  ∧ toCsv noParse (vArr [vObj [("a", vObj [("x", vNum 1)])], vObj [("b", vNum 2)]]) ""
      (some cfgNoDownload) = .threw "TypeError" := by
  exact ⟨rfl, by decide, rfl, rfl, by decide⟩

theorem resolveSegs_append (l1 l2 : List String) : ∀ cur,
    resolveSegs cur (l1 ++ l2)
      = match resolveSegs cur l1 with
        | .error e => .error e
        | .ok next => resolveSegs next l2 := by
  induction l1 with
  | nil => intro cur; rfl
  | cons s ss ih =>
    intro cur
    cases h : stepSeg cur s with
    | error e => simp only [List.cons_append, resolveSegs, h]
    | ok next =>
      simp only [List.cons_append, resolveSegs, h]
      exact ih next

theorem stepSeg_null (seg : String) : stepSeg (some vNull) seg = .error () := by
  rw [stepSeg]
  cases h : matchIndexSegment seg with
  | none => rfl
  | some p => cases p; rfl

/-- Claim C2 (amended): resolution yields `undefined` without failing
exactly when the LAST property access of the key path is the one that
misses: whenever the leading segments resolve to a defined, non-null value
and the final segment's access yields `undefined` (a plain field absent
from the object, or an index out of range), the cell is formatted as the
quoted literal text `"undefined"` (not as an empty cell) and the call
proceeds.  Any miss that leaves `undefined` (or a `null` value) with a
further access still to perform fails the whole resolution, hence the
conversion call: a leading segment list resolving to `undefined` with
segments remaining throws, the `name` part of an indexed segment resolving
to `undefined` throws even in final position (the `[index]` access is
performed on `undefined`), and every access on an `undefined` or `null`
current throws. -/
theorem resolution_miss_behavior :
    (∀ (obj : Value) (key : String) (front : List String) (k : String) (w : Value),
        splitDot key = front ++ [k] →
        resolveSegs (some obj) front = .ok (some w) →
        stepSeg (some w) k = .ok none →
        getNestedObjectValue obj key = .ok none
        ∧ formatCellValue obj key = .ok "\"undefined\"")
  ∧ (∀ (obj : Value) (key : String) (front rest : List String),
        splitDot key = front ++ rest → rest ≠ [] →
        resolveSegs (some obj) front = .ok none →
        getNestedObjectValue obj key = .error ())
  ∧ (∀ (obj : Value) (key : String) (front : List String) (seg name idx : String) (w : Value),
        splitDot key = front ++ [seg] →
        resolveSegs (some obj) front = .ok (some w) →
        matchIndexSegment seg = some (name, idx) →
        jsGet (some w) name = .ok none →
        getNestedObjectValue obj key = .error ())
  ∧ (∀ seg, stepSeg none seg = .error () ∧ stepSeg (some vNull) seg = .error ()) := by
  refine ⟨?_, ?_, ?_, fun seg => ⟨stepSeg_none seg, stepSeg_null seg⟩⟩
  · intro obj key front k w hsplit hfront hstep
    have hres : getNestedObjectValue obj key = .ok none := by
      rw [getNestedObjectValue, hsplit, resolveSegs_append, hfront]
      simp only [resolveSegs, hstep]
    exact ⟨hres, by rw [formatCellValue_ok _ _ none hres]; rfl⟩
  · intro obj key front rest hsplit hne hfront
    rw [getNestedObjectValue, hsplit, resolveSegs_append, hfront]
    cases rest with
    | nil => exact absurd rfl hne
    | cons r rs => exact resolveSegs_none_cons r rs
  · intro obj key front seg name idx w hsplit hfront hm hname
    have hstep : stepSeg (some w) seg = .error () := by
      rw [stepSeg, hm]
      show (match jsGet (some w) name with
            | Except.error e => Except.error e
            | Except.ok a => jsGet a idx) = Except.error ()
      rw [hname]
      rfl
    rw [getNestedObjectValue, hsplit, resolveSegs_append, hfront]
    show resolveSegs (some w) [seg] = .error ()
    simp only [resolveSegs, hstep]

/-- Claim C2 (amended), witness at a concrete input: the nested key path
"addr.city" produced by another record's shape, resolved against a record
whose `addr` object lacks `city`, resolves to `undefined` and formats as the
cell `"undefined"`. -/
theorem resolution_miss_behavior_witness :
    getNestedObjectValue (vObj [("addr", vObj [])]) "addr.city" = .ok none
    ∧ formatCellValue (vObj [("addr", vObj [])]) "addr.city" = .ok "\"undefined\"" :=
  resolution_miss_behavior.1 (vObj [("addr", vObj [])]) "addr.city" ["addr"] "city"
    (vObj []) (by rfl) (by rfl) (by rfl)

/-- Claim C3, counterexample: for the record `{tags:[1,2]}` (an array of
number primitives) the discoverer produces NO key paths at all — in
particular no per-index leaf `tags[0]` — because the recursion treats each
element as an object to enumerate and numbers have no enumerable
properties. -/
theorem primitive_array_no_index_keys :
    extractUniqueKeys [vObj [("tags", vArr [vNum 1, vNum 2])]] "" = []
  ∧ "tags[0]" ∉ extractUniqueKeys [vObj [("tags", vArr [vNum 1, vNum 2])]] "" := by
  exact ⟨rfl, by decide⟩

/-- Claim C3 (amended): the Schema Discoverer does NOT add per-index leaf
key paths for arrays of primitives.  An array field whose elements are all
non-string primitives (numbers, booleans, null) contributes no key paths at
all; string elements contribute per-character index paths such as
`tags[0].0`; and for arrays of objects of differing lengths, a record whose
array is shorter does not resolve the missing index to an empty cell — the
conversion call throws instead. -/
theorem primitive_array_key_paths :
    (∀ (k : String) (xs : List Value), (∀ x ∈ xs, nonStringPrim x = true) →
        extractUniqueKeys [vObj [(k, vArr xs)]] "" = [])
  ∧ extractUniqueKeys [vObj [("tags", vArr [vStr "ab"])]] "" = ["tags[0].0", "tags[0].1"]
  ∧ toCsv noParse (vArr [vObj [("t", vArr [vObj [("id", vNum 1)], vObj [("id", vNum 2)]])],
        vObj [("t", vArr [vObj [("id", vNum 3)]])]]) "" (some cfgNoDownload)
      = .threw "TypeError" := by
  refine ⟨?_, rfl, by decide⟩
  intro k xs h
  have h1 : extractVal "" (vObj [(k, vArr xs)]) = [] := by
    simp only [extractVal, extractFields, classifyField]
    rw [extractElems_nonStringPrim "" k xs h 0]
    rfl
  rw [extractUniqueKeys]
  simp only [extractAll, h1]
  rfl

/-- Claim C3 (amended), witness at a concrete input: an array of boolean and
null primitives yields no key paths. -/
theorem primitive_array_key_paths_witness :
    extractUniqueKeys [vObj [("flags", vArr [vBool true, vNull])]] "" = [] :=
  primitive_array_key_paths.1 "flags" [vBool true, vNull] (by decide)

/-- Claim C4: for every call to `toCsv` whose data argument is a string that
is not valid JSON (the host parser fails), or that parses to a
non-object/non-array/null result, the call fails with a thrown
invalid-input error, and no document is produced (no CSV text is returned
or handed to the download step). -/
theorem toCsv_invalid_json_throws :
    ∀ (jsonParse : String → Option Value) (s fn : String) (config : Option Config),
      (jsonParse s = none →
        toCsv jsonParse (vStr s) fn config = .threw "Invalid JSON"
        ∧ csvTextOf (toCsv jsonParse (vStr s) fn config) = none)
    ∧ (∀ v, jsonParse s = some v → isObjOrArr v = false →
        toCsv jsonParse (vStr s) fn config
          = .threw "Invalid JSON: Parsed data is not an object or is null"
        ∧ csvTextOf (toCsv jsonParse (vStr s) fn config) = none) := by
  intro jp s fn config
  constructor
  · intro hp
    have hn : normalizeData jp (vStr s) = .error "Invalid JSON" := by
      rw [normalizeData]
      show parseJson jp s = _
      rw [parseJson, hp]
    have : toCsv jp (vStr s) fn config = .threw "Invalid JSON" := by
      rw [toCsv]
      simp only [toCsvStateful, hn]
    exact ⟨this, by rw [this]; rfl⟩
  · intro v hp hv
    have hn : normalizeData jp (vStr s)
        = .error "Invalid JSON: Parsed data is not an object or is null" := by
      rw [normalizeData]
      show parseJson jp s = _
      rw [parseJson, hp]
      cases v with
      | vObj fs => exact Bool.noConfusion hv
      | vArr xs => exact Bool.noConfusion hv
      | vNull => rfl
      | vBool b => rfl
      | vNum n => rfl
      | vStr t => rfl
    have : toCsv jp (vStr s) fn config
        = .threw "Invalid JSON: Parsed data is not an object or is null" := by
      rw [toCsv]
      simp only [toCsvStateful, hn]
    exact ⟨this, by rw [this]; rfl⟩

/-- Claim C4, witness at a concrete input: a parser failure on the string
"not json" makes the call throw, producing no document. -/
theorem toCsv_invalid_json_throws_witness :
    toCsv noParse (vStr "not json") "" (some cfgNoDownload) = .threw "Invalid JSON"
    ∧ csvTextOf (toCsv noParse (vStr "not json") "" (some cfgNoDownload)) = none :=
  (toCsv_invalid_json_throws noParse "not json" "" (some cfgNoDownload)).1 rfl

theorem quoteCount_append (a b : String) :
    quoteCount (a ++ b) = quoteCount a + quoteCount b := by
  rw [quoteCount, quoteCount, quoteCount, strData_append, List.count_append]

/-- Claim C5: for every value passed to the cell formatter, the produced
cell is exactly one outer pair of double quotes around the quote-doubled
string form of the value, unconditionally (so no double-wrapping for
already-quoted-looking strings); the string form of a non-null object or
array is its JSON text, of `null` the literal text "null", and of
`undefined` the literal text "undefined"; quote-doubling represents every
embedded double quote as two (the quote count doubles) and leaves all other
characters unchanged. -/
theorem formatCellValue_spec :
    (∀ (obj : Value) (key : String) (v : Option Value),
        getNestedObjectValue obj key = .ok v →
        formatCellValue obj key = .ok ("\"" ++ doubleQuotes (strCellValue v) ++ "\""))
  ∧ (∀ fs, strCellValue (some (vObj fs)) = jsonStringify (vObj fs))
  ∧ (∀ xs, strCellValue (some (vArr xs)) = jsonStringify (vArr xs))
  ∧ strCellValue (some vNull) = "null"
  ∧ strCellValue none = "undefined"
  ∧ (∀ s : String, quoteCount (doubleQuotes s) = 2 * quoteCount s)
  ∧ (∀ s : String,
      (doubleQuotes s).data.filter (fun c => c != '"') = s.data.filter (fun c => c != '"'))
  ∧ (∀ (obj : Value) (key : String) (v : Option Value),
      getNestedObjectValue obj key = .ok v →
      quoteCount ((formatCellValue obj key).toOption.getD "")
        = 2 * quoteCount (strCellValue v) + 2) := by
  refine ⟨formatCellValue_ok, fun fs => rfl, fun xs => rfl, rfl, rfl,
    quoteCount_doubleQuotes, doubleQuotes_filter, ?_⟩
  intro obj key v h
  rw [formatCellValue_ok _ _ v h]
  show quoteCount ("\"" ++ doubleQuotes (strCellValue v) ++ "\"") = _
  rw [quoteCount_append, quoteCount_append, quoteCount_doubleQuotes]
  show 1 + 2 * quoteCount (strCellValue v) + 1 = _
  omega

/-- Claim C5, witness at a concrete input: the string value `say "hi"` (with
embedded quotes) in a record formats to a single outer quote pair around the
doubled-quote text, and an already-quoted-looking string is wrapped exactly
once more, not specially treated. -/
theorem formatCellValue_spec_witness :
    formatCellValue (vObj [("a", vStr "say \"hi\"")]) "a" = .ok "\"say \"\"hi\"\"\"" :=
  formatCellValue_spec.1 (vObj [("a", vStr "say \"hi\"")]) "a" (some (vStr "say \"hi\"")) rfl

/-- Claim C6: for every conversion call that yields a document (returned or
downloaded), the Key Path Set is the one computed once by
`extractUniqueKeys`, and the document is exactly the prelude, the header
over that key list, and one rendered row per record over that same key
list, where every data row's cell list has exactly the key list's length
(equal to the header's cell count, in the same column order). -/
theorem toCsv_row_column_alignment :
    ∀ (jsonParse : String → Option Value) (records : List Value) (fn : String)
      (config : Option Config) (s : String),
      csvTextOf (toCsv jsonParse (vArr records) fn config) = some s →
      ∃ grid, documentGrid records (extractUniqueKeys records "") = .ok grid
        ∧ s = csvPrelude (applyFilename (mergeConfig config) fn)
            ++ generateCsvHeader (extractUniqueKeys records "")
                 (applyFilename (mergeConfig config) fn).fieldSeparator
            ++ concatStrings
                 (grid.map (renderRow (applyFilename (mergeConfig config) fn).fieldSeparator))
        ∧ ∀ row ∈ grid, row.length = (extractUniqueKeys records "").length := by
  intro jp records fn config s h
  rw [toCsv] at h
  simp only [toCsvStateful, normalizeData, typeofObject, if_true] at h
  cases hg : documentGrid records (extractUniqueKeys records "") with
  | error e =>
    rcases hrl : rowsLoop (extractUniqueKeys records "")
        (applyFilename (mergeConfig config) fn).fieldSeparator
        (csvPrelude (applyFilename (mergeConfig config) fn)
          ++ generateCsvHeader (extractUniqueKeys records "")
               (applyFilename (mergeConfig config) fn).fieldSeparator) records
      with ⟨c, b⟩
    have hb : b = true := by
      have := rowsLoop_of_grid_error (extractUniqueKeys records "")
        (applyFilename (mergeConfig config) fn).fieldSeparator records e hg
        (csvPrelude (applyFilename (mergeConfig config) fn)
          ++ generateCsvHeader (extractUniqueKeys records "")
               (applyFilename (mergeConfig config) fn).fieldSeparator)
      rw [hrl] at this
      exact this
    subst hb
    rw [hrl] at h
    simp only [csvTextOf] at h
    cases h
  | ok grid =>
    have hw := rowsLoop_of_grid_ok (extractUniqueKeys records "")
      (applyFilename (mergeConfig config) fn).fieldSeparator records grid hg
      (csvPrelude (applyFilename (mergeConfig config) fn)
        ++ generateCsvHeader (extractUniqueKeys records "")
             (applyFilename (mergeConfig config) fn).fieldSeparator)
    rw [hw] at h
    refine ⟨grid, rfl, ?_, documentGrid_length records _ grid hg⟩
    split at h
    · exact Option.noConfusion h
    · rename_i x csv0 heq
      injection heq with hcsv hb
      subst hcsv
      split at h
      · exact Option.noConfusion h
      · split at h
        · exact (Option.some.inj h).symm
        · exact (Option.some.inj h).symm

/-- Claim C6, witness at a concrete input: the scenario-6 call instantiates
the alignment theorem. -/
theorem toCsv_row_column_alignment_witness :
    ∃ grid, documentGrid flatRecordList (extractUniqueKeys flatRecordList "") = .ok grid
      ∧ ("﻿" ++ "a,b\r\n\"1\",\"x\"\r\n\"2\",\"y\"\r\n")
          = csvPrelude (applyFilename (mergeConfig (some cfgNoDownload)) "")
            ++ generateCsvHeader (extractUniqueKeys flatRecordList "")
                 (applyFilename (mergeConfig (some cfgNoDownload)) "").fieldSeparator
            ++ concatStrings
                 (grid.map (renderRow
                    (applyFilename (mergeConfig (some cfgNoDownload)) "").fieldSeparator))
      ∧ ∀ row ∈ grid, row.length = (extractUniqueKeys flatRecordList "").length :=
  toCsv_row_column_alignment noParse flatRecordList "" (some cfgNoDownload) _ (by rfl)

/-- Claim C7: for every input collection and key prefix, the Key Path Set
produced by the Schema Discoverer has its duplicates suppressed (no
duplicate key paths), preserves first-discovery order across the whole scan
(it is a sublist of the raw discovery sequence), and is a superset of each
individual record's flattened leaf field paths. -/
theorem extractUniqueKeys_complete_nodup_ordered :
    ∀ (records : List Value) (keyPfx : String),
      (extractUniqueKeys records keyPfx).Nodup
    ∧ (extractUniqueKeys records keyPfx).Sublist (extractAll records keyPfx)
    ∧ (∀ r ∈ records, ∀ k ∈ extractVal keyPfx r, k ∈ extractUniqueKeys records keyPfx) := by
  intro records pfx
  refine ⟨nodup_dedupFirst _, dedupFirst_sublist _, ?_⟩
  intro r hr k hk
  rw [extractUniqueKeys, mem_dedupFirst]
  exact mem_extractAll_of_mem records pfx r hr k hk

/-- Claim C7, witness at a concrete input: the leaf path "b" of the second
record is in the Key Path Set of the two-record collection. -/
theorem extractUniqueKeys_complete_witness :
    "b" ∈ extractUniqueKeys [vObj [("a", vNum 1)], vObj [("b", vNum 2)]] "" :=
  (extractUniqueKeys_complete_nodup_ordered [vObj [("a", vNum 1)], vObj [("b", vNum 2)]] "").2.2
    (vObj [("b", vNum 2)]) (List.mem_cons_of_mem _ (List.mem_cons_self _ _)) "b" (by decide)

/-- Claim C8: the conversion's outcome is a deterministic function of the
call's inputs and does not depend on the instance state left by previous
calls: the outcome is identical from any two starting states, running the
call a second time from the state the first call produced yields the same
outcome, and both coincide with the outcome from a fresh instance. -/
theorem toCsv_deterministic_stateless :
    ∀ (jsonParse : String → Option Value) (d : Value) (fn : String)
      (config : Option Config) (st st' : ServiceState),
      (toCsvStateful jsonParse st d fn config).2 = (toCsvStateful jsonParse st' d fn config).2
    ∧ (toCsvStateful jsonParse (toCsvStateful jsonParse st d fn config).1 d fn config).2
        = (toCsvStateful jsonParse st d fn config).2
    ∧ toCsv jsonParse d fn config = (toCsvStateful jsonParse st d fn config).2 :=
  fun jp d fn config st st' =>
    ⟨toCsvStateful_outcome_state_free jp d fn config st st',
     toCsvStateful_outcome_state_free jp d fn config _ st,
     toCsvStateful_outcome_state_free jp d fn config initialState st⟩

/-- Claim C9: the filename argument overrides the merged configuration's
filename only when it is non-empty; with an empty filename argument the
merged configuration's filename is kept, whose default is "csv.csv". -/
theorem filename_override_semantics :
    ∀ (config : Option Config) (fn : String),
      (fn ≠ "" → (applyFilename (mergeConfig config) fn).filename = fn)
    ∧ ((applyFilename (mergeConfig config) "").filename = (mergeConfig config).filename)
    ∧ (∀ c : Config, c.filename = none → (mergeConfig (some c)).filename = "csv.csv")
    ∧ (mergeConfig none).filename = "csv.csv" := by
  intro config fn
  refine ⟨?_, ?_, ?_, rfl⟩
  · intro hfn
    rw [applyFilename, if_neg hfn]
  · rw [applyFilename, if_pos rfl]
  · intro c hc
    simp [mergeConfig, hc, ConfigDefaults]

/-- Claim C9, witness at a concrete input: a non-empty filename argument
overrides the merged configuration. -/
theorem filename_override_semantics_witness :
    (applyFilename (mergeConfig (some cfgNoDownload)) "report").filename = "report" :=
  (filename_override_semantics (some cfgNoDownload) "report").1 (by decide)

theorem mem_joinSep_infix (sep : String) (keys : List String) (k : String)
    (hk : k ∈ keys) : k.data <:+: (joinSep sep keys).data := by
  induction keys with
  | nil => cases hk
  | cons a as ih =>
    cases as with
    | nil =>
      rcases List.mem_cons.mp hk with rfl | h0
      · exact ⟨[], [], by simp [joinSep]⟩
      · cases h0
    | cons b bs =>
      rcases List.mem_cons.mp hk with rfl | h0
      · refine ⟨[], (sep ++ joinSep sep (b :: bs)).data, ?_⟩
        simp [joinSep, strData_append, List.append_assoc]
      · rcases ih h0 with ⟨s1, t1, hst⟩
        refine ⟨(a ++ sep).data ++ s1, t1, ?_⟩
        rw [joinSep, strData_append, strData_append, ← hst]
        simp [List.append_assoc]

/-- Claim C10: header cells are never quoted or escaped — the header line is
the raw key paths joined by the field separator followed by the line
terminator, every key path occurs verbatim (as a contiguous substring) in
the header line, and concretely a field name containing a double quote
appears unquoted in the header while its data cell is quoted. -/
theorem header_cells_raw :
    (∀ (keys : List String) (sep : String),
        generateCsvHeader keys sep = joinSep sep keys ++ END_OF_LINE)
  ∧ (∀ (keys : List String) (sep : String) (k : String), k ∈ keys →
        k.data <:+: (generateCsvHeader keys sep).data)
  ∧ toCsv noParse (vArr [vObj [("a\"b", vNum 1)]]) "" (some cfgNoDownload)
      = .returned ("﻿" ++ "a\"b\r\n\"1\"\r\n") := by
  refine ⟨fun keys sep => rfl, ?_, by decide⟩
  intro keys sep k hk
  rcases mem_joinSep_infix sep keys k hk with ⟨s1, t1, hst⟩
  refine ⟨s1, t1 ++ END_OF_LINE.data, ?_⟩
  rw [generateCsvHeader, strData_append, ← hst]
  simp [List.append_assoc]

/-- Claim C10, witness at a concrete input: a key path containing the field
separator occurs verbatim in the header line. -/
theorem header_cells_raw_witness :
    ("a,b").data <:+: (generateCsvHeader ["a,b"] ",").data :=
  header_cells_raw.2.1 ["a,b"] "," "a,b" (List.mem_cons_self _ _)
